import Mathlib

/-!
Verification of the `EventHubConsumer` core
(`sdk/eventhub/azure-eventhub/azure/eventhub/_consumer.py`).

The embedding models the consumer state (`running`, `closed`, `handler_ready`,
`_offset`, `_message_buffer`, `_last_received_event`, `_receive_start_time`),
the push-style `_message_received` callback, `_next_message_in_buffer`,
`_open`, and the `receive(batch, max_batch_size, max_wait_time)` retry/flush
loop.  Network nondeterminism (what each "ensure open + do_work" attempt does)
is resolved by an explicit oracle: a list of `AttemptOutcome` values, one per
loop iteration.  Ghost fields (`opens`, `attempts`, `enqLog`, `delivLog`)
record handler constructions, executed attempts, all messages ever enqueued,
and all events ever handed to the caller callback; they never influence
control flow.

Collaborators that live outside the source file (`EventData._from_message`,
`ConsumerProducerMixin.close`, `ConsumerProducerMixin._handle_exception`,
`AmqpTransport.check_link_stolen`) are modelled from the spec, and say so in
their doc comments.
-/

/-- Modelled from the spec: the EventConverter collaborator output
(`EventData`, built by `EventData._from_message`, which is not in the source
under review): a domain event with accessible sequence number, offset and
payload. -/
structure EventData where
  offset : Nat
  seqNum : Nat
  body : Nat
deriving Repr, DecidableEq

/-- A raw transport message as it arrives from the network pull primitive. -/
structure Msg where
  offset : Nat
  seqNum : Nat
  body : Nat
deriving Repr, DecidableEq

/-- Modelled from the spec: the EventConverter transformation
`rawMessage -> DomainEvent` (`EventData._from_message` in `_common.py`,
outside the source under review).  Fields carry over unchanged. -/
def EventData.fromMessage (m : Msg) : EventData :=
  ⟨m.offset, m.seqNum, m.body⟩

/-- Transport-raised failures, tagged by classification:
`importError` is the missing-optional-dependency case (Fatal-Unretryable),
`linkStolen` is the epoch-takeover case (Fatal-Preempted), and `transient`
is everything else (Retryable).  The `code` distinguishes occurrences. -/
inductive Err where
  | importError (code : Nat)
  | linkStolen (code : Nat)
  | transient (code : Nat)
deriving Repr, DecidableEq

def Err.isImportError : Err → Bool
  | .importError _ => true
  | _ => false

def Err.isLinkStolen : Err → Bool
  | .linkStolen _ => true
  | _ => false

/-- What `receive` raises to its caller: `orig` is the re-raised ImportError,
`stolen` is the dedicated preemption signal raised by `check_link_stolen`,
`wrapped` is the `last_exception` produced by `_handle_exception` and raised
on retry exhaustion; each carries the underlying transport error. -/
inductive Raised where
  | orig (e : Err)
  | stolen (e : Err)
  | wrapped (e : Err)
deriving Repr, DecidableEq

/-- The mutable state of one `EventHubConsumer`.  The first seven fields are
the source attributes `running`, `closed`, `handler_ready`, `_offset`,
`_message_buffer`, `_last_received_event`, `_receive_start_time`.  The last
four are ghost instrumentation: `opens` counts handler construct-and-open
events, `attempts` counts executed open-plus-pull attempts, `enqLog` records
every message ever appended by `_message_received`, and `delivLog` records
every event ever passed to `_on_event_received`, flattened in order. -/
structure ConsumerState where
  running : Bool
  closed : Bool
  handlerReady : Bool
  offset : Option Nat
  messageBuffer : List Msg
  lastReceivedEvent : Option EventData
  receiveStartTime : Option Nat
  opens : Nat
  attempts : Nat
  enqLog : List Msg
  delivLog : List EventData
deriving Repr, DecidableEq

/-- `_message_received`: the transport callback appends the raw message at the
tail of `_message_buffer` (ghost: and to the enqueue log). -/
def messageReceived (σ : ConsumerState) (m : Msg) : ConsumerState :=
  { σ with
    messageBuffer := σ.messageBuffer ++ [m]
    enqLog := σ.enqLog ++ [m] }

/-- `_next_message_in_buffer`: pop the head of `_message_buffer`, convert it,
record it as `_last_received_event`, and return it.  The source would raise
`IndexError` on an empty deque; every caller guards emptiness, so the model
returns `none` there. -/
def nextMessageInBuffer (σ : ConsumerState) :
    Option (EventData × ConsumerState) :=
  match σ.messageBuffer with
  | [] => none
  | m :: rest =>
      let ev := EventData.fromMessage m
      some (ev, { σ with messageBuffer := rest, lastReceivedEvent := some ev })

/-- Modelled from the spec: `close` (in `ConsumerProducerMixin`, not in the
source under review) tears down the handler and sets `closed = true`,
`running = false`. -/
def close (σ : ConsumerState) : ConsumerState :=
  { σ with running := false, closed := true, handlerReady := false }

/-- The reopen block of `_open`: when not running, close any stale handler,
construct a fresh receive client bound to the current `_offset`, open it,
and set `handler_ready := false`, `running := true` (ghost: count the open). -/
def openHandler (σ : ConsumerState) : ConsumerState :=
  if σ.running then σ
  else { σ with running := true, handlerReady := false, opens := σ.opens + 1 }

/-- One iteration of the try block in `receive`: `self._open()` followed, when
it returns ready, by `self._handler.do_work(batch=self._prefetch)`.
`ok ready msgs` means no exception was raised: `_open` returned `ready` and,
when ready, `do_work` invoked the message callback once per element of `msgs`.
`errOpen e` means the exception escaped before `running` was set (inside the
reopen block, or from the readiness probe with state untouched).
`errWork msgs e` means `_open` completed (so `running = true`) and `do_work`
raised `e` after the callback had enqueued `msgs`. -/
inductive AttemptOutcome where
  | ok (ready : Bool) (msgs : List Msg)
  | errOpen (e : Err)
  | errWork (msgs : List Msg) (e : Err)
deriving Repr, DecidableEq

/-- The exception carried by an attempt outcome, if any. -/
def attemptError : AttemptOutcome → Option Err
  | .ok _ _ => none
  | .errOpen e => some e
  | .errWork _ e => some e

/-- State transformer of one open-plus-pull attempt, returning the state after
the try block together with the escaped exception, if any. -/
def runAttempt (σ : ConsumerState) (o : AttemptOutcome) :
    ConsumerState × Option Err :=
  match o with
  | .ok ready msgs =>
      let σ1 := openHandler σ
      let σ2 := { σ1 with handlerReady := σ1.handlerReady || ready }
      let σ3 := if σ2.handlerReady then msgs.foldl messageReceived σ2 else σ2
      ({ σ3 with attempts := σ3.attempts + 1 }, none)
  | .errOpen e =>
      ({ σ with attempts := σ.attempts + 1 }, some e)
  | .errWork msgs e =>
      let σ1 := openHandler σ
      let σ2 := { σ1 with handlerReady := true }
      let σ3 := msgs.foldl messageReceived σ2
      ({ σ3 with attempts := σ3.attempts + 1 }, some e)

/-- Modelled from the spec: `_handle_exception` (in `ConsumerProducerMixin`,
not in the source under review) tears down the current handler so the next
attempt reconstructs it from scratch at the rewound position, and returns the
wrapped last error. -/
def handleException (σ : ConsumerState) : ConsumerState :=
  { σ with running := false, handlerReady := false }

/-- How the retry loop of `receive` terminated: `broke` is the normal `break`
after a non-raising attempt, `stopped` is the silent `return` taken when
`running` is false at the exception check, `raised` is a propagated error,
and `starved` marks oracle exhaustion (the environment supplied fewer attempt
outcomes than the loop consumed; no source behaviour corresponds to it). -/
inductive LoopResult where
  | broke (σ : ConsumerState)
  | stopped (σ : ConsumerState)
  | raised (σ : ConsumerState) (r : Raised)
  | starved (σ : ConsumerState)
deriving Repr, DecidableEq

/-- The rewind in the except block:
`if self._last_received_event: self._offset = self._last_received_event.offset`. -/
def rewindOffset (σ : ConsumerState) : ConsumerState :=
  match σ.lastReceivedEvent with
  | some ev => { σ with offset := some ev.offset }
  | none => σ

/-- The retry loop of `receive` (`while retried_times <= max_retries`), one
oracle entry per iteration.  On an exception: re-raise `ImportError` as is;
let `check_link_stolen` raise its dedicated signal on preemption; silently
return if no longer `running`; rewind `_offset` to the last received event
when one exists; wrap the error via `_handle_exception`; raise the wrapped
error once `retried_times` exceeds `max_retries`, else iterate. -/
def receiveLoop (σ : ConsumerState) (outcomes : List AttemptOutcome)
    (retried maxRetries : Nat) : LoopResult :=
  match outcomes with
  | [] => .starved σ
  | o :: rest =>
      match (runAttempt σ o).2 with
      | none => .broke (runAttempt σ o).1
      | some e =>
          if e.isImportError then .raised (runAttempt σ o).1 (.orig e)
          else if e.isLinkStolen then .raised (runAttempt σ o).1 (.stolen e)
          else if !(runAttempt σ o).1.running then .stopped (runAttempt σ o).1
          else
            let σ3 := handleException (rewindOffset (runAttempt σ o).1)
            if maxRetries < retried + 1 then .raised σ3 (.wrapped e)
            else receiveLoop σ3 rest (retried + 1) maxRetries

/-- Python truthiness of the optional `max_wait_time`: `None` and `0` are
falsy. -/
def truthy : Option Nat → Bool
  | none => false
  | some t => t != 0

/-- The expression `max_wait_time or 0` used to compute the deadline. -/
def pyOrZero : Option Nat → Nat
  | none => 0
  | some t => t

/-- The expression `self._receive_start_time or time.time()`: a stored anchor
is kept unless it is falsy (`None`, or the time value `0`). -/
def pyOrTime (s : Option Nat) (t : Nat) : Nat :=
  match s with
  | none => t
  | some v => if v = 0 then t else v

/-- The flush condition of `receive`, evaluated after the pull attempt:
occupancy at least `max_batch_size`, or a non-empty buffer with falsy
`max_wait_time`, or an expired deadline with truthy `max_wait_time`. -/
def flushCond (σ : ConsumerState) (maxBatchSize : Nat)
    (maxWaitTime : Option Nat) (deadline now : Nat) : Bool :=
  decide (maxBatchSize ≤ σ.messageBuffer.length)
    || (!σ.messageBuffer.isEmpty && !truthy maxWaitTime)
    || (decide (deadline ≤ now) && truthy maxWaitTime)

/-- What one flush hands to `_on_event_received`: a whole list in batch mode,
or an optional single event in single mode (with `none` the explicit no-event
signal). -/
inductive Delivery where
  | batch (events : List EventData)
  | single (event : Option EventData)
deriving Repr, DecidableEq

/-- The batch-mode dequeue loop
`for _ in range(min(max_batch_size, len(self._message_buffer)))`,
collecting converted events in FIFO order. -/
def drainBuffer : Nat → ConsumerState → List EventData × ConsumerState
  | 0, σ => ([], σ)
  | n + 1, σ =>
      match nextMessageInBuffer σ with
      | none => ([], σ)
      | some (ev, σ1) =>
          (ev :: (drainBuffer n σ1).1, (drainBuffer n σ1).2)

/-- Ghost bookkeeping for a callback invocation: append the delivered events
to the delivery log.  The explicit no-event signal delivers no event. -/
def deliver (σ : ConsumerState) (d : Delivery) : ConsumerState :=
  match d with
  | .batch evs => { σ with delivLog := σ.delivLog ++ evs }
  | .single (some ev) => { σ with delivLog := σ.delivLog ++ [ev] }
  | .single none => σ

/-- The flush section of `receive` (its final `if` statement): when the flush
condition holds, dequeue and convert per mode, invoke `_on_event_received`
once, and clear `_receive_start_time`; otherwise do nothing.  Returns the new
state and what was handed to the callback, `none` meaning the callback was
not invoked at all. -/
def flushAndDeliver (σ : ConsumerState) (batch : Bool) (maxBatchSize : Nat)
    (maxWaitTime : Option Nat) (deadline now : Nat) :
    ConsumerState × Option Delivery :=
  if flushCond σ maxBatchSize maxWaitTime deadline now then
    if batch then
      let evs := (drainBuffer (min maxBatchSize σ.messageBuffer.length) σ).1
      let σ1 := (drainBuffer (min maxBatchSize σ.messageBuffer.length) σ).2
      let σ2 := deliver σ1 (.batch evs)
      ({ σ2 with receiveStartTime := none }, some (.batch evs))
    else
      match nextMessageInBuffer σ with
      | some (ev, σ1) =>
          let σ2 := deliver σ1 (.single (some ev))
          ({ σ2 with receiveStartTime := none }, some (.single (some ev)))
      | none =>
          ({ σ with receiveStartTime := none }, some (.single none))
  else (σ, none)

/-- Result of one `receive` call: `completed` fell through to the flush
section (the `Option Delivery` records the callback invocation, if any),
`stopped` is the silent return, `err` a propagated exception, `starved` the
oracle running dry. -/
inductive ReceiveResult where
  | completed (σ : ConsumerState) (delivered : Option Delivery)
  | stopped (σ : ConsumerState)
  | err (σ : ConsumerState) (raised : Raised)
  | starved (σ : ConsumerState)
deriving Repr, DecidableEq

def ReceiveResult.state : ReceiveResult → ConsumerState
  | .completed σ _ => σ
  | .stopped σ => σ
  | .err σ _ => σ
  | .starved σ => σ

/-- `receive(batch, max_batch_size, max_wait_time)`: anchor
`_receive_start_time`, compute the deadline, run the retried pull loop when
the buffer is below `max_batch_size`, then apply the flush section.  `t0` is
the clock at the anchor (`time.time()` on line 214), `t1` the clock at the
deadline test (line 248). -/
def receive (σ : ConsumerState) (batch : Bool) (maxBatchSize : Nat)
    (maxWaitTime : Option Nat) (maxRetries : Nat)
    (outcomes : List AttemptOutcome) (t0 t1 : Nat) : ReceiveResult :=
  let start := pyOrTime σ.receiveStartTime t0
  let σ0 := { σ with receiveStartTime := some start }
  let deadline := start + pyOrZero maxWaitTime
  let loopRes :=
    if σ0.messageBuffer.length < maxBatchSize then
      receiveLoop σ0 outcomes 0 maxRetries
    else .broke σ0
  match loopRes with
  | .broke σ1 =>
      .completed (flushAndDeliver σ1 batch maxBatchSize maxWaitTime deadline t1).1
        (flushAndDeliver σ1 batch maxBatchSize maxWaitTime deadline t1).2
  | .stopped σ1 => .stopped σ1
  | .raised σ1 r => .err σ1 r
  | .starved σ1 => .starved σ1

/-- One caller invocation of `receive`, with its oracle and clock readings. -/
structure CallSpec where
  batch : Bool
  maxBatchSize : Nat
  maxWaitTime : Option Nat
  maxRetries : Nat
  outcomes : List AttemptOutcome
  t0 : Nat
  t1 : Nat
deriving Repr, DecidableEq

/-- Any number of consecutive `receive` calls, threading the state. -/
def runCalls (σ : ConsumerState) : List CallSpec → ConsumerState
  | [] => σ
  | c :: cs =>
      runCalls
        (receive σ c.batch c.maxBatchSize c.maxWaitTime c.maxRetries
          c.outcomes c.t0 c.t1).state cs

/-- The core ordering invariant: the events already delivered, followed by
the conversion of what is still buffered, are exactly the conversions of all
messages ever enqueued, in order. -/
def OrderInv (σ : ConsumerState) : Prop :=
  σ.delivLog ++ σ.messageBuffer.map EventData.fromMessage
    = σ.enqLog.map EventData.fromMessage

instance (σ : ConsumerState) : Decidable (OrderInv σ) := by
  unfold OrderInv; infer_instance

/-- The cursor invariant: `_last_received_event` is the most recently
delivered event (or `none` before the first delivery). -/
def CursorInv (σ : ConsumerState) : Prop :=
  σ.lastReceivedEvent = σ.delivLog.getLast?

instance (σ : ConsumerState) : Decidable (CursorInv σ) := by
  unfold CursorInv; infer_instance

/-! ### Basic state lemmas -/

def LoopResult.state : LoopResult → ConsumerState
  | .broke σ => σ
  | .stopped σ => σ
  | .raised σ _ => σ
  | .starved σ => σ

lemma foldl_messageReceived (msgs : List Msg) (σ : ConsumerState) :
    msgs.foldl messageReceived σ =
      { σ with messageBuffer := σ.messageBuffer ++ msgs
               enqLog := σ.enqLog ++ msgs } := by
  induction msgs generalizing σ with
  | nil => simp
  | cons m rest ih =>
      rcases σ with ⟨run, cl, hr, off, buf, lre, rst, op, att, enq, dlv⟩
      simp [messageReceived, ih]

lemma openHandler_eq (σ : ConsumerState) :
    openHandler σ =
      { σ with running := true
               handlerReady := σ.running && σ.handlerReady
               opens := if σ.running then σ.opens else σ.opens + 1 } := by
  rcases σ with ⟨run, cl, hr, off, buf, lre, rst, op, att, enq, dlv⟩
  cases run <;> simp [openHandler]

lemma runAttempt_snd (σ : ConsumerState) (o : AttemptOutcome) :
    (runAttempt σ o).2 = attemptError o := by
  cases o <;> simp [runAttempt, attemptError]

/-- One attempt appends some messages at the tail of the buffer (mirrored in
the enqueue log), counts one executed attempt, and leaves the position
cursor, the delivery cursor and log, the closed flag, and the anchor
untouched. -/
lemma runAttempt_state (σ : ConsumerState) (o : AttemptOutcome) :
    ∃ ms : List Msg,
      (runAttempt σ o).1.messageBuffer = σ.messageBuffer ++ ms ∧
      (runAttempt σ o).1.enqLog = σ.enqLog ++ ms ∧
      (runAttempt σ o).1.delivLog = σ.delivLog ∧
      (runAttempt σ o).1.lastReceivedEvent = σ.lastReceivedEvent ∧
      (runAttempt σ o).1.offset = σ.offset ∧
      (runAttempt σ o).1.closed = σ.closed ∧
      (runAttempt σ o).1.receiveStartTime = σ.receiveStartTime ∧
      (runAttempt σ o).1.attempts = σ.attempts + 1 := by
  rcases σ with ⟨run, cl, hr, off, buf, lre, rst, op, att, enq, dlv⟩
  cases o with
  | ok ready msgs =>
      refine ⟨if (run && hr) || ready then msgs else [], ?_⟩
      cases run <;> cases hr <;> cases ready <;>
        simp [runAttempt, openHandler, foldl_messageReceived]
  | errOpen e => exact ⟨[], by simp [runAttempt]⟩
  | errWork msgs e =>
      cases run <;>
        exact ⟨msgs, by simp [runAttempt, openHandler, foldl_messageReceived]⟩

lemma runAttempt_errWork_running (σ : ConsumerState) (msgs : List Msg)
    (e : Err) : (runAttempt σ (.errWork msgs e)).1.running = true := by
  rcases σ with ⟨run, cl, hr, off, buf, lre, rst, op, att, enq, dlv⟩
  cases run <;> simp [runAttempt, openHandler, foldl_messageReceived]

lemma rewindOffset_fields (σ : ConsumerState) :
    (rewindOffset σ).messageBuffer = σ.messageBuffer ∧
    (rewindOffset σ).enqLog = σ.enqLog ∧
    (rewindOffset σ).delivLog = σ.delivLog ∧
    (rewindOffset σ).lastReceivedEvent = σ.lastReceivedEvent ∧
    (rewindOffset σ).closed = σ.closed ∧
    (rewindOffset σ).receiveStartTime = σ.receiveStartTime ∧
    (rewindOffset σ).running = σ.running := by
  cases h : σ.lastReceivedEvent <;> simp [rewindOffset, h]

lemma rewindOffset_offset (σ : ConsumerState) (ev : EventData)
    (h : σ.lastReceivedEvent = some ev) :
    (rewindOffset σ).offset = some ev.offset := by
  simp [rewindOffset, h]

/-- Across the whole retry loop the delivery log, delivery cursor, closed
flag and anchor are untouched, and the buffer only grows at its tail
(mirrored in the enqueue log). -/
lemma receiveLoop_state (outcomes : List AttemptOutcome) :
    ∀ (σ : ConsumerState) (retried maxRetries : Nat),
      ∃ ms : List Msg,
        ((receiveLoop σ outcomes retried maxRetries).state).messageBuffer
            = σ.messageBuffer ++ ms ∧
        ((receiveLoop σ outcomes retried maxRetries).state).enqLog
            = σ.enqLog ++ ms ∧
        ((receiveLoop σ outcomes retried maxRetries).state).delivLog
            = σ.delivLog ∧
        ((receiveLoop σ outcomes retried maxRetries).state).lastReceivedEvent
            = σ.lastReceivedEvent ∧
        ((receiveLoop σ outcomes retried maxRetries).state).closed
            = σ.closed ∧
        ((receiveLoop σ outcomes retried maxRetries).state).receiveStartTime
            = σ.receiveStartTime := by
  induction outcomes with
  | nil =>
      intro σ retried maxRetries
      exact ⟨[], by simp [receiveLoop, LoopResult.state]⟩
  | cons o rest ih =>
      intro σ retried maxRetries
      obtain ⟨ms0, hb, he, hd, hl, -, hc, hrst, -⟩ := runAttempt_state σ o
      obtain ⟨rf1, rf2, rf3, rf4, rf5, rf6, -⟩ :=
        rewindOffset_fields (runAttempt σ o).1
      cases hoe : (runAttempt σ o).2 with
      | none =>
          exact ⟨ms0, by
            simp [receiveLoop, hoe, LoopResult.state, hb, he, hd, hl, hc, hrst]⟩
      | some e =>
          by_cases hie : e.isImportError = true
          · exact ⟨ms0, by
              simp [receiveLoop, hoe, hie, LoopResult.state, hb, he, hd, hl, hc, hrst]⟩
          by_cases hls : e.isLinkStolen = true
          · exact ⟨ms0, by
              simp [receiveLoop, hoe, hie, hls, LoopResult.state, hb, he, hd, hl, hc, hrst]⟩
          by_cases hrun : (runAttempt σ o).1.running = true
          · by_cases hex : maxRetries < retried + 1
            · refine ⟨ms0, ?_⟩
              simp [receiveLoop, hoe, hie, hls, hrun, hex, LoopResult.state,
                handleException, rf1, rf2, rf3, rf4, rf5, rf6,
                hb, he, hd, hl, hc, hrst]
            · obtain ⟨ms1, ib, ie2, id2, il, ic, irst⟩ :=
                ih (handleException (rewindOffset (runAttempt σ o).1))
                  (retried + 1) maxRetries
              refine ⟨ms0 ++ ms1, ?_⟩
              simp only [receiveLoop, hoe, hie, hls, hrun, hex, Bool.not_true,
                Bool.false_eq_true, if_false, ite_false, if_true, ite_true]
              refine ⟨?_, ?_, ?_, ?_, ?_, ?_⟩
              · rw [ib]; simp [handleException, rf1, hb, List.append_assoc]
              · rw [ie2]; simp [handleException, rf2, he, List.append_assoc]
              · rw [id2]; simp [handleException, rf3, hd]
              · rw [il]; simp [handleException, rf4, hl]
              · rw [ic]; simp [handleException, rf5, hc]
              · rw [irst]; simp [handleException, rf6, hrst]
          · exact ⟨ms0, by
              simp [receiveLoop, hoe, hie, hls, hrun, LoopResult.state,
                hb, he, hd, hl, hc, hrst]⟩

lemma nextMessageInBuffer_cons (σ : ConsumerState) (m : Msg) (rest : List Msg)
    (h : σ.messageBuffer = m :: rest) :
    nextMessageInBuffer σ =
      some (EventData.fromMessage m,
        { σ with messageBuffer := rest
                 lastReceivedEvent := some (EventData.fromMessage m) }) := by
  simp [nextMessageInBuffer, h]

/-- Draining touches only the buffer and the delivery cursor. -/
lemma drainBuffer_fields (n : Nat) :
    ∀ σ : ConsumerState,
      (drainBuffer n σ).2.delivLog = σ.delivLog ∧
      (drainBuffer n σ).2.enqLog = σ.enqLog ∧
      (drainBuffer n σ).2.offset = σ.offset ∧
      (drainBuffer n σ).2.running = σ.running ∧
      (drainBuffer n σ).2.closed = σ.closed ∧
      (drainBuffer n σ).2.handlerReady = σ.handlerReady ∧
      (drainBuffer n σ).2.receiveStartTime = σ.receiveStartTime ∧
      (drainBuffer n σ).2.opens = σ.opens ∧
      (drainBuffer n σ).2.attempts = σ.attempts := by
  induction n with
  | zero => intro σ; simp [drainBuffer]
  | succ k ih =>
      intro σ
      cases hbuf : σ.messageBuffer with
      | nil => simp [drainBuffer, nextMessageInBuffer, hbuf]
      | cons m rest =>
          have h2 := ih { σ with
            messageBuffer := rest
            lastReceivedEvent := some (EventData.fromMessage m) }
          simp only [drainBuffer, nextMessageInBuffer_cons σ m rest hbuf]
          simpa using h2

/-- Draining dequeues a front segment: the drained events followed by the
conversions of the leftover buffer are the conversions of the whole buffer. -/
lemma drainBuffer_order (n : Nat) :
    ∀ σ : ConsumerState,
      (drainBuffer n σ).1
          ++ ((drainBuffer n σ).2.messageBuffer).map EventData.fromMessage
        = σ.messageBuffer.map EventData.fromMessage := by
  induction n with
  | zero => intro σ; simp [drainBuffer]
  | succ k ih =>
      intro σ
      cases hbuf : σ.messageBuffer with
      | nil => simp [drainBuffer, nextMessageInBuffer, hbuf]
      | cons m rest =>
          have h2 := ih { σ with
            messageBuffer := rest
            lastReceivedEvent := some (EventData.fromMessage m) }
          simp only [drainBuffer, nextMessageInBuffer_cons σ m rest hbuf]
          simp only [List.map_cons, List.cons_append]
          simpa using h2

/-- Draining keeps the delivery cursor pointing at the last event of any
delivered-so-far list extended by the drained events. -/
lemma drainBuffer_cursor (n : Nat) :
    ∀ (σ : ConsumerState) (L : List EventData),
      σ.lastReceivedEvent = L.getLast? →
      (drainBuffer n σ).2.lastReceivedEvent
        = (L ++ (drainBuffer n σ).1).getLast? := by
  induction n with
  | zero => intro σ L h; simpa [drainBuffer] using h
  | succ k ih =>
      intro σ L h
      cases hbuf : σ.messageBuffer with
      | nil => simpa [drainBuffer, nextMessageInBuffer, hbuf] using h
      | cons m rest =>
          have h2 := ih
            { σ with
              messageBuffer := rest
              lastReceivedEvent := some (EventData.fromMessage m) }
            (L ++ [EventData.fromMessage m])
            (by simp)
          simp only [drainBuffer, nextMessageInBuffer_cons σ m rest hbuf]
          simpa [List.append_assoc] using h2

lemma flushAndDeliver_orderInv (σ : ConsumerState) (b : Bool) (mbs : Nat)
    (mwt : Option Nat) (dl now : Nat) (h : OrderInv σ) :
    OrderInv (flushAndDeliver σ b mbs mwt dl now).1 := by
  unfold OrderInv at h ⊢
  unfold flushAndDeliver
  by_cases hc : flushCond σ mbs mwt dl now = true
  · simp only [hc, ite_true]
    cases b
    · cases hbuf : σ.messageBuffer with
      | nil =>
          rw [hbuf] at h
          simpa [nextMessageInBuffer, hbuf] using h
      | cons m rest =>
          simp only [nextMessageInBuffer_cons σ m rest hbuf, Bool.false_eq_true,
            if_false, ite_false]
          simp only [deliver]
          rw [hbuf] at h
          simpa [List.append_assoc] using h
    · simp only [if_true, ite_true]
      have hord := drainBuffer_order (min mbs σ.messageBuffer.length) σ
      obtain ⟨hd, he, -⟩ := drainBuffer_fields (min mbs σ.messageBuffer.length) σ
      simp only [deliver, hd, he]
      rw [List.append_assoc, hord, h]
  · simpa [hc] using h

lemma flushAndDeliver_cursorInv (σ : ConsumerState) (b : Bool) (mbs : Nat)
    (mwt : Option Nat) (dl now : Nat) (h : CursorInv σ) :
    CursorInv (flushAndDeliver σ b mbs mwt dl now).1 := by
  unfold CursorInv at h ⊢
  unfold flushAndDeliver
  by_cases hc : flushCond σ mbs mwt dl now = true
  · simp only [hc, ite_true]
    cases b
    · cases hbuf : σ.messageBuffer with
      | nil => simpa [nextMessageInBuffer, hbuf] using h
      | cons m rest =>
          simp only [nextMessageInBuffer_cons σ m rest hbuf, Bool.false_eq_true,
            if_false, ite_false]
          simp [deliver]
    · simp only [if_true, ite_true]
      have hcur := drainBuffer_cursor (min mbs σ.messageBuffer.length) σ
        σ.delivLog h
      obtain ⟨hd, -⟩ := drainBuffer_fields (min mbs σ.messageBuffer.length) σ
      simp only [deliver, hd]
      exact hcur
  · simpa [hc] using h

lemma receiveLoop_orderInv (σ : ConsumerState) (outcomes : List AttemptOutcome)
    (retried maxRetries : Nat) (h : OrderInv σ) :
    OrderInv (receiveLoop σ outcomes retried maxRetries).state := by
  obtain ⟨ms, hb, he, hd, -, -, -⟩ := receiveLoop_state outcomes σ retried maxRetries
  unfold OrderInv at h ⊢
  rw [hb, he, hd, List.map_append, List.map_append, ← List.append_assoc, h]

lemma receiveLoop_cursorInv (σ : ConsumerState) (outcomes : List AttemptOutcome)
    (retried maxRetries : Nat) (h : CursorInv σ) :
    CursorInv (receiveLoop σ outcomes retried maxRetries).state := by
  obtain ⟨ms, -, -, hd, hl, -, -⟩ := receiveLoop_state outcomes σ retried maxRetries
  unfold CursorInv at h ⊢
  rw [hd, hl, h]

lemma receive_orderInv (σ : ConsumerState) (b : Bool) (mbs : Nat)
    (mwt : Option Nat) (maxR : Nat) (outcomes : List AttemptOutcome)
    (t0 t1 : Nat) (h : OrderInv σ) :
    OrderInv (receive σ b mbs mwt maxR outcomes t0 t1).state := by
  unfold receive
  have h0 : OrderInv { σ with
      receiveStartTime := some (pyOrTime σ.receiveStartTime t0) } := by
    simpa [OrderInv] using h
  by_cases hlt : σ.messageBuffer.length < mbs
  · simp only [hlt, ite_true]
    have hloop := receiveLoop_orderInv _ outcomes 0 maxR h0
    cases hres : receiveLoop { σ with
        receiveStartTime := some (pyOrTime σ.receiveStartTime t0) }
        outcomes 0 maxR with
    | broke σ1 =>
        rw [hres] at hloop
        simpa [ReceiveResult.state]
          using flushAndDeliver_orderInv σ1 b mbs mwt _ t1 hloop
    | stopped σ1 => rw [hres] at hloop; simpa [ReceiveResult.state] using hloop
    | raised σ1 r => rw [hres] at hloop; simpa [ReceiveResult.state] using hloop
    | starved σ1 => rw [hres] at hloop; simpa [ReceiveResult.state] using hloop
  · simp only [hlt, ite_false]
    simpa [ReceiveResult.state]
      using flushAndDeliver_orderInv _ b mbs mwt _ t1 h0

lemma receive_cursorInv (σ : ConsumerState) (b : Bool) (mbs : Nat)
    (mwt : Option Nat) (maxR : Nat) (outcomes : List AttemptOutcome)
    (t0 t1 : Nat) (h : CursorInv σ) :
    CursorInv (receive σ b mbs mwt maxR outcomes t0 t1).state := by
  unfold receive
  have h0 : CursorInv { σ with
      receiveStartTime := some (pyOrTime σ.receiveStartTime t0) } := by
    simpa [CursorInv] using h
  by_cases hlt : σ.messageBuffer.length < mbs
  · simp only [hlt, ite_true]
    have hloop := receiveLoop_cursorInv _ outcomes 0 maxR h0
    cases hres : receiveLoop { σ with
        receiveStartTime := some (pyOrTime σ.receiveStartTime t0) }
        outcomes 0 maxR with
    | broke σ1 =>
        rw [hres] at hloop
        simpa [ReceiveResult.state]
          using flushAndDeliver_cursorInv σ1 b mbs mwt _ t1 hloop
    | stopped σ1 => rw [hres] at hloop; simpa [ReceiveResult.state] using hloop
    | raised σ1 r => rw [hres] at hloop; simpa [ReceiveResult.state] using hloop
    | starved σ1 => rw [hres] at hloop; simpa [ReceiveResult.state] using hloop
  · simp only [hlt, ite_false]
    simpa [ReceiveResult.state]
      using flushAndDeliver_cursorInv _ b mbs mwt _ t1 h0

/-! ### Scenario lemmas for the retry loop -/

lemma receiveLoop_stolen (σ : ConsumerState) (o : AttemptOutcome)
    (rest : List AttemptOutcome) (retried maxR : Nat) (e : Err)
    (he : attemptError o = some e) (hs : e.isLinkStolen = true) :
    receiveLoop σ (o :: rest) retried maxR
      = .raised (runAttempt σ o).1 (.stolen e) := by
  have hsnd := runAttempt_snd σ o
  rw [he] at hsnd
  have hie : e.isImportError = false := by
    cases e <;> simp_all [Err.isLinkStolen, Err.isImportError]
  simp [receiveLoop, hsnd, hie, hs]

lemma receiveLoop_importError (σ : ConsumerState) (o : AttemptOutcome)
    (rest : List AttemptOutcome) (retried maxR : Nat) (e : Err)
    (he : attemptError o = some e) (hi : e.isImportError = true) :
    receiveLoop σ (o :: rest) retried maxR
      = .raised (runAttempt σ o).1 (.orig e) := by
  have hsnd := runAttempt_snd σ o
  rw [he] at hsnd
  simp [receiveLoop, hsnd, hi]

lemma receive_of_raised (σ : ConsumerState) (b : Bool) (mbs : Nat)
    (mwt : Option Nat) (maxR : Nat) (outcomes : List AttemptOutcome)
    (t0 t1 : Nat) (σ1 : ConsumerState) (r : Raised)
    (hbuf : σ.messageBuffer.length < mbs)
    (hres : receiveLoop
        { σ with receiveStartTime := some (pyOrTime σ.receiveStartTime t0) }
        outcomes 0 maxR = .raised σ1 r) :
    receive σ b mbs mwt maxR outcomes t0 t1 = .err σ1 r := by
  simp [receive, hbuf, hres]

lemma receive_of_broke (σ : ConsumerState) (b : Bool) (mbs : Nat)
    (mwt : Option Nat) (maxR : Nat) (outcomes : List AttemptOutcome)
    (t0 t1 : Nat) (σ1 : ConsumerState)
    (hbuf : σ.messageBuffer.length < mbs)
    (hres : receiveLoop
        { σ with receiveStartTime := some (pyOrTime σ.receiveStartTime t0) }
        outcomes 0 maxR = .broke σ1) :
    receive σ b mbs mwt maxR outcomes t0 t1 =
      .completed
        (flushAndDeliver σ1 b mbs mwt
          (pyOrTime σ.receiveStartTime t0 + pyOrZero mwt) t1).1
        (flushAndDeliver σ1 b mbs mwt
          (pyOrTime σ.receiveStartTime t0 + pyOrZero mwt) t1).2 := by
  simp [receive, hbuf, hres]

/-- The flush phase only ever touches the buffer, the delivery cursor and
log, and the deadline anchor. -/
lemma flushAndDeliver_fields (σ : ConsumerState) (b : Bool) (mbs : Nat)
    (mwt : Option Nat) (dl now : Nat) :
    (flushAndDeliver σ b mbs mwt dl now).1.running = σ.running ∧
    (flushAndDeliver σ b mbs mwt dl now).1.closed = σ.closed ∧
    (flushAndDeliver σ b mbs mwt dl now).1.handlerReady = σ.handlerReady ∧
    (flushAndDeliver σ b mbs mwt dl now).1.offset = σ.offset ∧
    (flushAndDeliver σ b mbs mwt dl now).1.opens = σ.opens ∧
    (flushAndDeliver σ b mbs mwt dl now).1.attempts = σ.attempts ∧
    (flushAndDeliver σ b mbs mwt dl now).1.enqLog = σ.enqLog := by
  unfold flushAndDeliver
  by_cases hc : flushCond σ mbs mwt dl now = true
  · simp only [hc, ite_true]
    cases b
    · cases hbuf : σ.messageBuffer with
      | nil => simp [nextMessageInBuffer, hbuf, deliver]
      | cons m rest => simp [nextMessageInBuffer_cons σ m rest hbuf, deliver]
    · obtain ⟨-, he, hoff, hrun2, hcl, hhr, -, hop, hat⟩ :=
        drainBuffer_fields (min mbs σ.messageBuffer.length) σ
      simp [deliver, he, hoff, hrun2, hcl, hhr, hop, hat]
  · simp [hc]

lemma flushCond_iff (σ : ConsumerState) (mbs : Nat) (mwt : Option Nat)
    (dl now : Nat) :
    flushCond σ mbs mwt dl now = true ↔
      (mbs ≤ σ.messageBuffer.length ∨
        (σ.messageBuffer ≠ [] ∧ truthy mwt = false) ∨
        (truthy mwt = true ∧ dl ≤ now)) := by
  simp only [flushCond, Bool.or_eq_true, Bool.and_eq_true, decide_eq_true_eq,
    Bool.not_eq_true', List.isEmpty_eq_false]
  tauto

lemma flushAndDeliver_of_cond_false (σ : ConsumerState) (b : Bool) (mbs : Nat)
    (mwt : Option Nat) (dl now : Nat)
    (hc : flushCond σ mbs mwt dl now = false) :
    flushAndDeliver σ b mbs mwt dl now = (σ, none) := by
  simp [flushAndDeliver, hc]

lemma flushAndDeliver_isSome_of_cond_true (σ : ConsumerState) (b : Bool)
    (mbs : Nat) (mwt : Option Nat) (dl now : Nat)
    (hc : flushCond σ mbs mwt dl now = true) :
    (flushAndDeliver σ b mbs mwt dl now).2.isSome = true := by
  unfold flushAndDeliver
  simp only [hc, ite_true]
  cases b
  · cases hbuf : σ.messageBuffer with
    | nil => simp [nextMessageInBuffer, hbuf]
    | cons m rest => simp [nextMessageInBuffer_cons σ m rest hbuf]
  · simp

lemma rewindOffset_ghost (σ : ConsumerState) :
    (rewindOffset σ).attempts = σ.attempts ∧
    (rewindOffset σ).opens = σ.opens := by
  cases h : σ.lastReceivedEvent <;> simp [rewindOffset, h]

lemma runAttempt_ok_opens (σ : ConsumerState) (ready : Bool) (msgs : List Msg)
    (h : σ.running = false) :
    (runAttempt σ (.ok ready msgs)).1.opens = σ.opens + 1 ∧
    (runAttempt σ (.ok ready msgs)).1.running = true := by
  rcases σ with ⟨run, cl, hr, off, buf, lre, rst, op, att, enq, dlv⟩
  simp only at h
  subst h
  cases hr <;> cases ready <;>
    simp [runAttempt, openHandler, foldl_messageReceived]

/-- When the oracle serves nothing but do-work failures with Retryable
classification, the loop consumes exactly the retry budget plus one attempt
and then raises the wrapped last error. -/
lemma receiveLoop_all_transient :
    ∀ (outcomes : List AttemptOutcome) (σ : ConsumerState) (retried maxR : Nat),
      (∀ o ∈ outcomes, ∃ ms k, o = .errWork ms (.transient k)) →
      outcomes.length + retried = maxR + 1 →
      retried ≤ maxR →
      ∃ σ1 ms k,
        outcomes.getLast? = some (.errWork ms (.transient k)) ∧
        receiveLoop σ outcomes retried maxR
          = .raised σ1 (.wrapped (.transient k)) ∧
        σ1.attempts = σ.attempts + outcomes.length := by
  intro outcomes
  induction outcomes with
  | nil => intro σ retried maxR hall hlen hle; simp at hlen; omega
  | cons o rest ih =>
      intro σ retried maxR hall hlen hle
      obtain ⟨ms0, k0, ho⟩ := hall o (List.mem_cons_self o rest)
      subst ho
      have hsnd := runAttempt_snd σ (.errWork ms0 (.transient k0))
      have hrun := runAttempt_errWork_running σ ms0 (.transient k0)
      obtain ⟨msA, -, -, -, -, -, -, -, hatt⟩ :=
        runAttempt_state σ (.errWork ms0 (.transient k0))
      obtain ⟨hra, -⟩ :=
        rewindOffset_ghost (runAttempt σ (.errWork ms0 (.transient k0))).1
      simp only [List.length_cons] at hlen
      by_cases hex : maxR < retried + 1
      · have hz : rest.length = 0 := by omega
        have hrest : rest = [] := List.length_eq_zero.mp hz
        subst hrest
        refine ⟨handleException
            (rewindOffset (runAttempt σ (.errWork ms0 (.transient k0))).1),
          ms0, k0, by simp, ?_, ?_⟩
        · simp [receiveLoop, hsnd, attemptError, Err.isImportError,
            Err.isLinkStolen, hrun, hex]
        · simp [handleException, hra, hatt]
      · obtain ⟨σ1, ms, k, hlast, hres, hatt2⟩ :=
          ih (handleException
              (rewindOffset (runAttempt σ (.errWork ms0 (.transient k0))).1))
            (retried + 1) maxR
            (fun o2 ho2 => hall o2 (List.mem_cons_of_mem _ ho2))
            (by omega) (by omega)
        have hrest_ne : rest ≠ [] := by
          intro hr
          subst hr
          simp at hlen
          omega
        refine ⟨σ1, ms, k, ?_, ?_, ?_⟩
        · cases rest with
          | nil => exact absurd rfl hrest_ne
          | cons r t => simpa [List.getLast?_cons_cons] using hlast
        · simp only [receiveLoop, hsnd, attemptError]
          simp [Err.isImportError, Err.isLinkStolen, hrun, hex, hres]
        · rw [hatt2]
          simp [handleException, hra, hatt]
          omega

/-! ### Claim theorems -/

/-- A freshly constructed consumer: idle, nothing buffered, ghost logs
empty. -/
def initialState : ConsumerState :=
  { running := false, closed := false, handlerReady := false, offset := none,
    messageBuffer := [], lastReceivedEvent := none, receiveStartTime := none,
    opens := 0, attempts := 0, enqLog := [], delivLog := [] }

/-- C1: across any number of `receive` calls, in batch or single mode, the
concatenated sequence of events handed to the caller, followed by the
conversion of what is still buffered, equals the conversions of all messages
ever enqueued by the transport callback, in enqueue order — delivery order
equals arrival order. -/
theorem ordering_preserved_across_calls (σ : ConsumerState)
    (calls : List CallSpec) (h : OrderInv σ) :
    OrderInv (runCalls σ calls) := by
  induction calls generalizing σ with
  | nil => simpa [runCalls] using h
  | cons c cs ih =>
      simp only [runCalls]
      exact ih _ (receive_orderInv σ c.batch c.maxBatchSize c.maxWaitTime
        c.maxRetries c.outcomes c.t0 c.t1 h)

theorem ordering_preserved_across_calls_witness :
    OrderInv initialState ∧
    OrderInv (runCalls initialState
      [⟨true, 2, none, 1, [.ok true [⟨1, 1, 10⟩, ⟨2, 2, 20⟩]], 0, 0⟩,
       ⟨false, 9, none, 1, [.ok true [⟨3, 3, 30⟩]], 1, 1⟩]) :=
  ⟨by decide, ordering_preserved_across_calls initialState _ (by decide)⟩

/-- C2: with `max_retries = N` and every open-plus-pull attempt failing with
a Retryable error raised from `do_work` (so the consumer stays running at
the check), `receive` executes exactly `N + 1` attempts and then raises the
wrapped last failure. -/
theorem retry_bound_exhaustion (σ : ConsumerState) (b : Bool) (mbs N : Nat)
    (mwt : Option Nat) (outcomes : List AttemptOutcome) (t0 t1 : Nat)
    (hbuf : σ.messageBuffer.length < mbs)
    (hall : ∀ o ∈ outcomes, ∃ ms k, o = .errWork ms (.transient k))
    (hlen : outcomes.length = N + 1) :
    ∃ σ1 ms k,
      outcomes.getLast? = some (.errWork ms (.transient k)) ∧
      receive σ b mbs mwt N outcomes t0 t1
        = .err σ1 (.wrapped (.transient k)) ∧
      σ1.attempts = σ.attempts + (N + 1) := by
  obtain ⟨σ1, ms, k, hlast, hres, hatt⟩ :=
    receiveLoop_all_transient outcomes
      { σ with receiveStartTime := some (pyOrTime σ.receiveStartTime t0) }
      0 N hall (by omega) (by omega)
  refine ⟨σ1, ms, k, hlast,
    receive_of_raised σ b mbs mwt N outcomes t0 t1 σ1 _ hbuf hres, ?_⟩
  rw [hatt, hlen]

theorem retry_bound_exhaustion_witness :
    ∃ σ1 ms k,
      [AttemptOutcome.errWork [] (.transient 7),
       AttemptOutcome.errWork [] (.transient 8)].getLast?
          = some (.errWork ms (.transient k)) ∧
      receive initialState false 1 none 1
          [.errWork [] (.transient 7), .errWork [] (.transient 8)] 0 0
          = .err σ1 (.wrapped (.transient k)) ∧
      σ1.attempts = initialState.attempts + (1 + 1) :=
  retry_bound_exhaustion initialState false 1 1 none
    [.errWork [] (.transient 7), .errWork [] (.transient 8)] 0 0
    (by decide)
    (fun o ho => by
      simp only [List.mem_cons, List.mem_singleton] at ho
      rcases ho with h | h | h
      · exact ⟨[], 7, h⟩
      · exact ⟨[], 8, h⟩
      · cases h)
    (by decide)

/-- C3: the flush section invokes the handler exactly when occupancy reached
`max_batch_size`, or the buffer is non-empty with a falsy `max_wait_time`,
or a truthy `max_wait_time` is set and the deadline has passed; otherwise it
returns without touching the state. -/
theorem flush_iff_condition (σ : ConsumerState) (b : Bool) (mbs : Nat)
    (mwt : Option Nat) (dl now : Nat) :
    ((flushAndDeliver σ b mbs mwt dl now).2.isSome = true ↔
      (mbs ≤ σ.messageBuffer.length ∨
        (σ.messageBuffer ≠ [] ∧ truthy mwt = false) ∨
        (truthy mwt = true ∧ dl ≤ now))) ∧
    ((flushAndDeliver σ b mbs mwt dl now).2 = none →
      (flushAndDeliver σ b mbs mwt dl now).1 = σ) := by
  by_cases hc : flushCond σ mbs mwt dl now = true
  · have hsome := flushAndDeliver_isSome_of_cond_true σ b mbs mwt dl now hc
    refine ⟨⟨fun _ => (flushCond_iff σ mbs mwt dl now).mp hc,
      fun _ => hsome⟩, ?_⟩
    intro hnone
    rw [hnone] at hsome
    simp at hsome
  · have hcf : flushCond σ mbs mwt dl now = false := by
      cases hval : flushCond σ mbs mwt dl now
      · rfl
      · exact absurd hval hc
    have heq := flushAndDeliver_of_cond_false σ b mbs mwt dl now hcf
    refine ⟨?_, fun _ => by rw [heq]⟩
    rw [heq]
    simp only [Option.isSome_none]
    constructor
    · intro h; cases h
    · intro h
      exact absurd ((flushCond_iff σ mbs mwt dl now).mpr h) hc

theorem flush_iff_condition_witness :
    (flushAndDeliver initialState false 1 none 0 0).1 = initialState :=
  (flush_iff_condition initialState false 1 none 0 0).2 (by decide)

/-- C4: the delivery cursor `_last_received_event` always points at the last
event actually handed to the handler (an invariant every `receive` call
preserves), and on a Retryable do-work failure with at least one delivered
event and retry budget left, the loop continues from a state whose
`_offset` is rewound to that delivered event's offset with the handler torn
down, so the next attempt reopens from just after the last delivered
event. -/
theorem resume_from_last_delivered :
    (∀ (σ : ConsumerState) (b : Bool) (mbs : Nat) (mwt : Option Nat)
        (maxR : Nat) (outcomes : List AttemptOutcome) (t0 t1 : Nat),
        CursorInv σ →
        CursorInv (receive σ b mbs mwt maxR outcomes t0 t1).state) ∧
    (∀ (σ : ConsumerState) (msgs : List Msg) (k : Nat)
        (rest : List AttemptOutcome) (retried maxR : Nat) (ev : EventData),
        CursorInv σ →
        σ.delivLog.getLast? = some ev →
        retried + 1 ≤ maxR →
        ∃ σ2,
          receiveLoop σ (.errWork msgs (.transient k) :: rest) retried maxR
            = receiveLoop σ2 rest (retried + 1) maxR ∧
          σ2.offset = some ev.offset ∧
          σ2.running = false) := by
  constructor
  · exact fun σ b mbs mwt maxR outcomes t0 t1 h =>
      receive_cursorInv σ b mbs mwt maxR outcomes t0 t1 h
  · intro σ msgs k rest retried maxR ev hinv hlast hle
    have hinv2 : σ.lastReceivedEvent = σ.delivLog.getLast? := hinv
    have hsnd := runAttempt_snd σ (.errWork msgs (.transient k))
    have hrun := runAttempt_errWork_running σ msgs (.transient k)
    obtain ⟨ms, -, -, -, hl, -, -, -, -⟩ :=
      runAttempt_state σ (.errWork msgs (.transient k))
    have hlre : (runAttempt σ (.errWork msgs (.transient k))).1.lastReceivedEvent
        = some ev := by rw [hl, hinv2, hlast]
    have hex : ¬maxR < retried + 1 := by omega
    refine ⟨handleException
        (rewindOffset (runAttempt σ (.errWork msgs (.transient k))).1),
      ?_, ?_, ?_⟩
    · simp only [receiveLoop, hsnd, attemptError]
      simp [Err.isImportError, Err.isLinkStolen, hrun, hex]
    · have hproj : (handleException
          (rewindOffset (runAttempt σ (.errWork msgs (.transient k))).1)).offset
          = (rewindOffset (runAttempt σ (.errWork msgs (.transient k))).1).offset := by
        simp [handleException]
      rw [hproj]
      exact rewindOffset_offset _ ev hlre
    · simp [handleException]

/-- The reachable state used to witness the resume claim: one event has been
delivered and the cursor points at it. -/
def c4State : ConsumerState :=
  { running := true, closed := false, handlerReady := true, offset := some 1,
    messageBuffer := [], lastReceivedEvent := some ⟨5, 1, 10⟩,
    receiveStartTime := none, opens := 1, attempts := 1,
    enqLog := [⟨5, 1, 10⟩], delivLog := [⟨5, 1, 10⟩] }

theorem resume_from_last_delivered_witness :
    CursorInv (receive c4State false 1 none 0 [] 0 0).state ∧
    (∃ σ2, receiveLoop c4State [.errWork [] (.transient 3)] 0 1
            = receiveLoop σ2 [] 1 1 ∧
        σ2.offset = some 5 ∧ σ2.running = false) :=
  ⟨resume_from_last_delivered.1 c4State false 1 none 0 [] 0 0 (by decide),
   resume_from_last_delivered.2 c4State [] 3 [] 0 1 ⟨5, 1, 10⟩
     (by decide) (by decide) (by decide)⟩

/-- C5: a Fatal-Preempted (link-stolen) failure makes `receive` raise the
dedicated preemption signal on its very first occurrence, whatever the
remaining retry budget: exactly one attempt is executed and neither the
position cursor nor the delivery cursor changes. -/
theorem preemption_short_circuit (σ : ConsumerState) (b : Bool) (mbs : Nat)
    (mwt : Option Nat) (maxR : Nat) (o : AttemptOutcome)
    (rest : List AttemptOutcome) (t0 t1 : Nat) (e : Err)
    (hbuf : σ.messageBuffer.length < mbs)
    (he : attemptError o = some e) (hs : e.isLinkStolen = true) :
    ∃ σ1, receive σ b mbs mwt maxR (o :: rest) t0 t1 = .err σ1 (.stolen e) ∧
      σ1.offset = σ.offset ∧
      σ1.attempts = σ.attempts + 1 ∧
      σ1.lastReceivedEvent = σ.lastReceivedEvent := by
  have hres := receiveLoop_stolen
    { σ with receiveStartTime := some (pyOrTime σ.receiveStartTime t0) }
    o rest 0 maxR e he hs
  obtain ⟨ms, -, -, -, hl, hoff, -, -, hatt⟩ := runAttempt_state
    { σ with receiveStartTime := some (pyOrTime σ.receiveStartTime t0) } o
  exact ⟨_, receive_of_raised σ b mbs mwt maxR (o :: rest) t0 t1 _ _ hbuf hres,
    by rw [hoff], by rw [hatt], by rw [hl]⟩

theorem preemption_short_circuit_witness :
    ∃ σ1, receive initialState false 1 none 5
        [.errWork [] (.linkStolen 2)] 0 0
        = .err σ1 (.stolen (.linkStolen 2)) ∧
      σ1.offset = initialState.offset ∧
      σ1.attempts = initialState.attempts + 1 ∧
      σ1.lastReceivedEvent = initialState.lastReceivedEvent :=
  preemption_short_circuit initialState false 1 none 5
    (.errWork [] (.linkStolen 2)) [] 0 0 (.linkStolen 2)
    (by decide) (by decide) (by decide)

/-- C6 counterexample: after `close` (so `closed = true`, `running = false`),
a `receive` call whose first attempt succeeds does construct and open a new
network handler — the open counter increases and the consumer is running
again, refuting terminality of the Closed state in this component. -/
theorem closed_reopens_counterexample :
    (close initialState).closed = true ∧
    (close initialState).running = false ∧
    (close initialState).opens = 0 ∧
    (receive (close initialState) false 1 none 0 [.ok true []] 5 5).state.opens
      = 1 ∧
    (receive (close initialState) false 1 none 0
      [.ok true []] 5 5).state.running = true := by
  decide

/-- C6 amended: the Closed state is not terminal in this component.
Neither `receive` nor `_open` consults `closed`: on a closed consumer with
`running = false` and room in the buffer, a `receive` call whose first
attempt does not raise constructs and opens a fresh handler (the open count
increases by one) and leaves the consumer `running` — with `closed` still
set. -/
theorem closed_not_terminal_amended (σ : ConsumerState) (b : Bool) (mbs : Nat)
    (mwt : Option Nat) (maxR : Nat) (ready : Bool) (msgs : List Msg)
    (rest : List AttemptOutcome) (t0 t1 : Nat)
    (hclosed : σ.closed = true) (hrun : σ.running = false)
    (hbuf : σ.messageBuffer.length < mbs) :
    ∃ σ1 d, receive σ b mbs mwt maxR (.ok ready msgs :: rest) t0 t1
        = .completed σ1 d ∧
      σ1.opens = σ.opens + 1 ∧ σ1.running = true ∧ σ1.closed = true := by
  have hsnd := runAttempt_snd
    { σ with receiveStartTime := some (pyOrTime σ.receiveStartTime t0) }
    (.ok ready msgs)
  have hres : receiveLoop
      { σ with receiveStartTime := some (pyOrTime σ.receiveStartTime t0) }
      (.ok ready msgs :: rest) 0 maxR
      = .broke (runAttempt
          { σ with receiveStartTime := some (pyOrTime σ.receiveStartTime t0) }
          (.ok ready msgs)).1 := by
    simp [receiveLoop, hsnd, attemptError]
  have hrun0 : ({ σ with
      receiveStartTime := some (pyOrTime σ.receiveStartTime t0) }
        : ConsumerState).running = false := hrun
  obtain ⟨hop, hrn⟩ := runAttempt_ok_opens
    { σ with receiveStartTime := some (pyOrTime σ.receiveStartTime t0) }
    ready msgs hrun0
  obtain ⟨ms, -, -, -, -, -, hcl, -, -⟩ := runAttempt_state
    { σ with receiveStartTime := some (pyOrTime σ.receiveStartTime t0) }
    (.ok ready msgs)
  obtain ⟨frun, fcl, -, -, fop, -, -⟩ :=
    flushAndDeliver_fields
      (runAttempt
        { σ with receiveStartTime := some (pyOrTime σ.receiveStartTime t0) }
        (.ok ready msgs)).1
      b mbs mwt (pyOrTime σ.receiveStartTime t0 + pyOrZero mwt) t1
  refine ⟨_, _,
    receive_of_broke σ b mbs mwt maxR (.ok ready msgs :: rest) t0 t1 _
      hbuf hres, ?_, ?_, ?_⟩
  · rw [fop, hop]
  · rw [frun, hrn]
  · rw [fcl, hcl, hclosed]

theorem closed_not_terminal_amended_witness :
    ∃ σ1 d, receive (close initialState) false 1 none 0 [.ok true []] 5 5
        = .completed σ1 d ∧
      σ1.opens = (close initialState).opens + 1 ∧
      σ1.running = true ∧ σ1.closed = true :=
  closed_not_terminal_amended (close initialState) false 1 none 0 true [] [] 5 5
    (by decide) (by decide) (by decide)

/-- C7: whenever `receive` propagates an error, no flush has happened in
that call: the delivery log and the delivery cursor are unchanged, and the
initial buffer content survives in place, in order, only extended at the
tail by whatever the failed attempts had enqueued. -/
theorem error_propagation_no_flush (σ : ConsumerState) (b : Bool) (mbs : Nat)
    (mwt : Option Nat) (maxR : Nat) (outcomes : List AttemptOutcome)
    (t0 t1 : Nat) (σ1 : ConsumerState) (r : Raised)
    (h : receive σ b mbs mwt maxR outcomes t0 t1 = .err σ1 r) :
    σ1.delivLog = σ.delivLog ∧
    σ1.lastReceivedEvent = σ.lastReceivedEvent ∧
    ∃ ms, σ1.messageBuffer = σ.messageBuffer ++ ms ∧
      σ1.enqLog = σ.enqLog ++ ms := by
  by_cases hbuf : σ.messageBuffer.length < mbs
  · cases hres : receiveLoop
        { σ with receiveStartTime := some (pyOrTime σ.receiveStartTime t0) }
        outcomes 0 maxR with
    | broke σ2 =>
        rw [receive_of_broke σ b mbs mwt maxR outcomes t0 t1 σ2 hbuf hres] at h
        cases h
    | stopped σ2 => simp [receive, hbuf, hres] at h
    | starved σ2 => simp [receive, hbuf, hres] at h
    | raised σ2 r2 =>
        rw [receive_of_raised σ b mbs mwt maxR outcomes t0 t1 σ2 r2 hbuf hres]
          at h
        injection h with h1 h2
        subst h1
        obtain ⟨ms, hb2, he2, hd2, hl2, -, -⟩ :=
          receiveLoop_state outcomes
            { σ with receiveStartTime := some (pyOrTime σ.receiveStartTime t0) }
            0 maxR
        rw [hres] at hb2 he2 hd2 hl2
        simp only [LoopResult.state] at hb2 he2 hd2 hl2
        exact ⟨by simpa using hd2, by simpa using hl2, ms,
          by simpa using hb2, by simpa using he2⟩
  · simp [receive, hbuf] at h

/-- The post-error state reached in the C7 witness scenario. -/
def c7ErrState : ConsumerState :=
  { running := false, closed := false, handlerReady := false, offset := none,
    messageBuffer := [⟨1, 1, 1⟩], lastReceivedEvent := none,
    receiveStartTime := some 0, opens := 1, attempts := 1,
    enqLog := [⟨1, 1, 1⟩], delivLog := [] }

theorem error_propagation_no_flush_witness :
    c7ErrState.delivLog = initialState.delivLog ∧
    c7ErrState.lastReceivedEvent = initialState.lastReceivedEvent ∧
    ∃ ms, c7ErrState.messageBuffer = initialState.messageBuffer ++ ms ∧
      c7ErrState.enqLog = initialState.enqLog ++ ms :=
  error_propagation_no_flush initialState false 1 none 0
    [.errWork [⟨1, 1, 1⟩] (.transient 3)] 0 0 c7ErrState
    (.wrapped (.transient 3)) (by decide)

/-- C8: a Fatal-Unretryable failure (an `ImportError`) is re-raised by
`receive` at once: a single attempt is executed, no retry follows, and
neither the position cursor nor the delivery cursor changes. -/
theorem import_error_short_circuit (σ : ConsumerState) (b : Bool) (mbs : Nat)
    (mwt : Option Nat) (maxR : Nat) (o : AttemptOutcome)
    (rest : List AttemptOutcome) (t0 t1 : Nat) (e : Err)
    (hbuf : σ.messageBuffer.length < mbs)
    (he : attemptError o = some e) (hi : e.isImportError = true) :
    ∃ σ1, receive σ b mbs mwt maxR (o :: rest) t0 t1 = .err σ1 (.orig e) ∧
      σ1.offset = σ.offset ∧
      σ1.attempts = σ.attempts + 1 ∧
      σ1.lastReceivedEvent = σ.lastReceivedEvent := by
  have hres := receiveLoop_importError
    { σ with receiveStartTime := some (pyOrTime σ.receiveStartTime t0) }
    o rest 0 maxR e he hi
  obtain ⟨ms, -, -, -, hl, hoff, -, -, hatt⟩ := runAttempt_state
    { σ with receiveStartTime := some (pyOrTime σ.receiveStartTime t0) } o
  exact ⟨_, receive_of_raised σ b mbs mwt maxR (o :: rest) t0 t1 _ _ hbuf hres,
    by rw [hoff], by rw [hatt], by rw [hl]⟩

theorem import_error_short_circuit_witness :
    ∃ σ1, receive initialState true 5 (some 10) 3
        [.errOpen (.importError 4)] 0 0
        = .err σ1 (.orig (.importError 4)) ∧
      σ1.offset = initialState.offset ∧
      σ1.attempts = initialState.attempts + 1 ∧
      σ1.lastReceivedEvent = initialState.lastReceivedEvent :=
  import_error_short_circuit initialState true 5 (some 10) 3
    (.errOpen (.importError 4)) [] 0 0 (.importError 4)
    (by decide) (by decide) (by decide)

/-- C9: when the flush condition holds in single mode, a non-empty buffer
yields exactly one dequeued-and-converted event — cursor updated, handler
invoked once with it — while an empty buffer yields the explicit no-event
signal; in both cases the deadline anchor is cleared. -/
theorem single_mode_flush (σ : ConsumerState) (mbs : Nat) (mwt : Option Nat)
    (dl now : Nat) (hc : flushCond σ mbs mwt dl now = true) :
    (∀ m rest, σ.messageBuffer = m :: rest →
        flushAndDeliver σ false mbs mwt dl now =
          ({ σ with messageBuffer := rest
                    lastReceivedEvent := some (EventData.fromMessage m)
                    delivLog := σ.delivLog ++ [EventData.fromMessage m]
                    receiveStartTime := none },
           some (.single (some (EventData.fromMessage m))))) ∧
    (σ.messageBuffer = [] →
        flushAndDeliver σ false mbs mwt dl now =
          ({ σ with receiveStartTime := none }, some (.single none))) := by
  constructor
  · intro m rest hbuf
    simp [flushAndDeliver, hc, nextMessageInBuffer_cons σ m rest hbuf, deliver]
  · intro hbuf
    simp [flushAndDeliver, hc, nextMessageInBuffer, hbuf]

/-- A consumer with one buffered message, used to witness the single-mode
flush. -/
def c9State : ConsumerState :=
  { initialState with messageBuffer := [⟨3, 1, 30⟩] }

theorem single_mode_flush_witness :
    flushAndDeliver c9State false 5 none 0 0 =
      ({ c9State with messageBuffer := []
                      lastReceivedEvent := some (EventData.fromMessage ⟨3, 1, 30⟩)
                      delivLog := c9State.delivLog ++ [EventData.fromMessage ⟨3, 1, 30⟩]
                      receiveStartTime := none },
       some (.single (some (EventData.fromMessage ⟨3, 1, 30⟩)))) :=
  (single_mode_flush c9State 5 none 0 0 (by decide)).1 ⟨3, 1, 30⟩ [] (by decide)

/-- C10: `receive` with `max_wait_time = 0` behaves exactly like `receive`
with `max_wait_time` unset, because both the deadline computation
(`max_wait_time or 0`) and both flush-condition tests use Python truthiness,
under which `0` and `None` coincide. -/
theorem max_wait_time_zero_like_unset (σ : ConsumerState) (b : Bool)
    (mbs maxR : Nat) (outcomes : List AttemptOutcome) (t0 t1 : Nat) :
    receive σ b mbs (some 0) maxR outcomes t0 t1
      = receive σ b mbs none maxR outcomes t0 t1 := by
  rfl
